import Mathlib

/-!
# Verification of `src/source-updater.js` (SourceUpdater)

Shallow embedding of the `SourceUpdater` class: a serializing operation
queue that coordinates mutations (append / remove / abort / set timestamp
offset) against a `SourceBuffer`, which allows at most one pending
asynchronous mutation at a time and signals completion with an
out-of-band `updateend` event.

The class is embedded as a state record (one field per instance field of
the JS class, plus fields tracking the external collaborators it
observes: the SourceBuffer's busy flag and timestamp offset, the
MediaSource ready state and source-buffer count, and which event
listeners are currently registered).  Each public method and each
incoming event becomes a transition on that state; transitions also emit
a list of observable `Item`s recording when an action is dispatched to
the resource, when a completion callback is invoked (and with which
argument), and when a completion notification is delivered.

The external resource follows the model stated in the spec (§6): the
`append`, `remove` and `abort` mutations are asynchronous and each
produces exactly one completion notification (`updateend`); setting the
timestamp offset is synchronous and produces no notification.  Callback
re-entrancy (a completion callback synchronously invoking public
methods) is represented by serializing those calls as subsequent trace
inputs, which yields the same observable sequences because the handler's
trailing dispatch attempt and the call's own dispatch attempt are guarded
by the same condition.
-/

namespace SourceUpdaterModel

/-- MediaSource `readyState`: `'closed'`, `'open'` or `'ended'`. -/
inductive RS
  | closed
  | opened
  | ended
deriving DecidableEq, Repr

/-- The kind of action a queued operation performs on the SourceBuffer
(the closure passed as first element to `queueCallback_`). -/
inductive OpKind
  | append
  | remove (a b : Int)
  | abort
  | setOffset (v : Int)
deriving DecidableEq, Repr

/-- Observable items of an execution:
* `disp k`    — a queued action was invoked, dispatching mutation `k` to
                the SourceBuffer (`callbacks[0]()` in `runCallback_`);
* `cb c arg`  — completion callback `c` was invoked with argument `arg`
                (the JS code calls `pendingCallback()` with no arguments,
                 so the code always produces `arg = none`);
* `note f`    — an `updateend` completion notification was delivered,
                `f` records whether the resource reported a failure;
* `trig`      — `sourceBufferEmitter.trigger('sourcebufferadded')`;
* `abortCall` — `sourceBuffer_.abort()` requested from `dispose`. -/
inductive Item
  | disp (k : OpKind)
  | cb (c : Nat) (arg : Option Bool)
  | note (failed : Bool)
  | trig
  | abortCall
deriving DecidableEq, Repr

/-- State of one `SourceUpdater` instance together with the observable
state of its collaborators.  Callbacks are identified by `Nat` ids; a
queue entry is `(action kind, done)` with `done = none` when the `done`
argument was `undefined` (as in the action queued by `timestampOffset`).
-/
structure SourceUpdater where
  /-- `this.callbacks_`: the FIFO queue of `[callback, done]` pairs. -/
  callbacks_ : List (OpKind × Option Nat)
  /-- `this.pendingCallback_`: the stashed `done` of the dispatched
  operation (`none` for JS `null`/`undefined`, both falsy). -/
  pendingCallback_ : Option Nat
  /-- `this.timestampOffset_`: the locally cached timestamp offset. -/
  timestampOffset_ : Int
  /-- `this.processedAppend_`: sticky flag, set by `appendBuffer`. -/
  processedAppend_ : Bool
  /-- `this.started_` (undefined, hence falsy, before `start_`). -/
  started_ : Bool
  /-- whether `this.sourceBuffer_` has been assigned (`createSourceBuffer_`). -/
  hasSourceBuffer : Bool
  /-- `this.sourceBuffer_.updating`: an asynchronous mutation is in
  flight on the resource (its completion notification is still due). -/
  sbUpdating : Bool
  /-- `this.sourceBuffer_.timestampOffset`: the offset actually applied
  to the resource. -/
  sbTimestampOffset : Int
  /-- whether `onUpdateendCallback_` is registered for `updateend`. -/
  subscribedUpdateend : Bool
  /-- whether the constructor registered the `sourceopen` listener. -/
  subscribedSourceopen : Bool
  /-- whether `createSourceBuffer_` registered the `sourcebufferadded`
  listener on the emitter (the awaiting-pairing rendezvous). -/
  awaitingPairing : Bool
  /-- `this.mediaSource.readyState`. -/
  msReadyState : RS
  /-- `this.mediaSource.sourceBuffers.length`. -/
  sbCount : Nat
  /-- whether a `sourceBufferEmitter` was supplied to the constructor. -/
  hasEmitter : Bool
deriving DecidableEq, Repr

/-- `updating()`:
`return !this.sourceBuffer_ || this.sourceBuffer_.updating || this.pendingCallback_;`
(as a boolean: a pending callback function is truthy, `null`/`undefined`
are falsy). -/
def updating (s : SourceUpdater) : Bool :=
  !s.hasSourceBuffer || s.sbUpdating || s.pendingCallback_.isSome

/-- Invoking a queued action (`callbacks[0]()`): its effect on the
resource, and the `disp` observable.  `append`, `remove` and `abort`
start an asynchronous mutation (resource becomes busy until its
completion notification); assigning `timestampOffset` is synchronous. -/
def applyAction (k : OpKind) (s : SourceUpdater) : SourceUpdater × List Item :=
  match k with
  | .append => ({ s with sbUpdating := true }, [Item.disp k])
  | .remove _ _ => ({ s with sbUpdating := true }, [Item.disp k])
  | .abort => ({ s with sbUpdating := true }, [Item.disp k])
  | .setOffset v => ({ s with sbTimestampOffset := v }, [Item.disp k])

/-- `runCallback_()`: dispatch the head of the queue when not updating,
the queue is non-empty and `started_` is set. -/
def runCallback_ (s : SourceUpdater) : SourceUpdater × List Item :=
  if !(updating s) && !s.callbacks_.isEmpty && s.started_ then
    match s.callbacks_ with
    | [] => (s, [])
    | e :: rest =>
      applyAction e.1 { s with callbacks_ := rest, pendingCallback_ := e.2 }
  else
    (s, [])

/-- `queueCallback_(callback, done)`: push `[callback, done]` onto the
queue, then attempt a dispatch. -/
def queueCallback_ (k : OpKind) (done : Option Nat) (s : SourceUpdater) :
    SourceUpdater × List Item :=
  runCallback_ { s with callbacks_ := s.callbacks_ ++ [(k, done)] }

/-- The `onUpdateendCallback_` handler body: take the pending callback,
clear it, invoke it (with no arguments) when set, then `runCallback_()`. -/
def onUpdateendCallback_ (s : SourceUpdater) : SourceUpdater × List Item :=
  let pending := s.pendingCallback_
  let s1 := { s with pendingCallback_ := none }
  let fireEvs : List Item :=
    match pending with
    | some c => [Item.cb c none]
    | none => []
  let r := runCallback_ s1
  (r.1, fireEvs ++ r.2)

/-- `start_()`: set `started_`, register the `updateend` handler, and
attempt a dispatch. -/
def start_ (s : SourceUpdater) : SourceUpdater × List Item :=
  runCallback_ { s with started_ := true, subscribedUpdateend := true }

/-- `this.mediaSource.addSourceBuffer(mimeType)`: succeeds only while
the MediaSource is open (per the Media Source spec it throws an
`InvalidStateError` otherwise, which the spec's container interface
records as `createResource ... | throws`). -/
def addSourceBuffer (s : SourceUpdater) : Option SourceUpdater :=
  if s.msReadyState = RS.opened then
    some { s with hasSourceBuffer := true, sbCount := s.sbCount + 1 }
  else
    none

/-- The body of `createSourceBuffer_` after the SourceBuffer has been
assigned: with an emitter, trigger `'sourcebufferadded'` and, when fewer
than two source buffers exist, subscribe to the pairing notification and
return without starting; otherwise `start_`. -/
def createdNext (s1 : SourceUpdater) : SourceUpdater × List Item :=
  if s1.hasEmitter then
    if s1.sbCount < 2 then
      ({ s1 with awaitingPairing := true }, [Item.trig])
    else
      ((start_ s1).1, Item.trig :: (start_ s1).2)
  else
    start_ s1

/-- `createSourceBuffer_(mimeType, sourceBufferEmitter)`: create the
SourceBuffer (throws while the MediaSource is not open), then proceed
as in `createdNext`. -/
def createSourceBuffer_ (s : SourceUpdater) : Option (SourceUpdater × List Item) :=
  match addSourceBuffer s with
  | none => none
  | some s1 => some (createdNext s1)

/-- The instance-field initialization in the constructor, before the
`readyState` test. -/
def baseState (rs : RS) (em : Bool) (cnt : Nat) : SourceUpdater :=
  { callbacks_ := []
    pendingCallback_ := none
    timestampOffset_ := 0
    processedAppend_ := false
    started_ := false
    hasSourceBuffer := false
    sbUpdating := false
    sbTimestampOffset := 0
    subscribedUpdateend := false
    subscribedSourceopen := false
    awaitingPairing := false
    msReadyState := rs
    sbCount := cnt
    hasEmitter := em }

/-- The constructor: initialize the fields; if `readyState === 'closed'`
subscribe to `sourceopen`, otherwise call `createSourceBuffer_`
immediately (`none` when that throws). -/
def initSU (rs : RS) (em : Bool) (cnt : Nat) : Option (SourceUpdater × List Item) :=
  let s0 := baseState rs em cnt
  if rs = RS.closed then
    some ({ s0 with subscribedSourceopen := true }, [])
  else
    createSourceBuffer_ s0

/-- `timestampOffset(offset)`: with a defined argument, queue the
assignment and cache the value; always return the cached value.  The
result is `((new state, items), returned value)`. -/
def timestampOffset (off : Option Int) (s : SourceUpdater) :
    (SourceUpdater × List Item) × Int :=
  match off with
  | some v =>
    let r := queueCallback_ (OpKind.setOffset v) none s
    (({ r.1 with timestampOffset_ := v }, r.2), v)
  | none => ((s, []), s.timestampOffset_)

/-- `dispose()`: `this.sourceBuffer_.removeEventListener(...)` throws a
`TypeError` when `sourceBuffer_` was never assigned (`none` result);
otherwise unsubscribe, and request `sourceBuffer_.abort()` when the
MediaSource is still open. -/
def dispose (s : SourceUpdater) : Option (SourceUpdater × List Item) :=
  if s.hasSourceBuffer then
    let s1 := { s with subscribedUpdateend := false }
    if s1.hasSourceBuffer && decide (s1.msReadyState = RS.opened) then
      some (s1, [Item.abortCall])
    else
      some (s1, [])
  else
    none

/-- Inputs driving an instance: public API calls and events delivered by
the host (the `done` arguments are callback ids, `none` = `undefined`). -/
inductive Input
  | callAppend (done : Option Nat)
  | callRemove (a b : Int) (done : Option Nat)
  | callAbort (done : Option Nat)
  | callTimestampOffset (off : Option Int)
  | evUpdateend (failed : Bool)
  | evSourceopen
  | evSourcebufferadded
deriving DecidableEq, Repr

/-- One transition.  API calls follow the method bodies; events first
update the collaborator state (`updating` cleared before `updateend`
handlers run, `readyState` becomes open on `sourceopen`, the peer's
`addSourceBuffer` increments the count before `'sourcebufferadded'`
listeners run) and then run the registered handler, if any. -/
def step1 (s : SourceUpdater) (i : Input) : SourceUpdater × List Item :=
  match i with
  | .callAppend done =>
    queueCallback_ OpKind.append done { s with processedAppend_ := true }
  | .callRemove a b done =>
    if s.processedAppend_ then
      queueCallback_ (OpKind.remove a b) done s
    else
      (s, [])
  | .callAbort done =>
    if s.processedAppend_ then
      queueCallback_ OpKind.abort done s
    else
      (s, [])
  | .callTimestampOffset off => (timestampOffset off s).1
  | .evUpdateend failed =>
    let s1 := { s with sbUpdating := false }
    if s1.subscribedUpdateend then
      let r := onUpdateendCallback_ s1
      (r.1, Item.note failed :: r.2)
    else
      (s1, [Item.note failed])
  | .evSourceopen =>
    let s1 := { s with msReadyState := RS.opened }
    if s1.subscribedSourceopen then
      match createSourceBuffer_ s1 with
      | some r => r
      | none => (s1, [])
    else
      (s1, [])
  | .evSourcebufferadded =>
    let s1 := { s with sbCount := s.sbCount + 1 }
    if s1.awaitingPairing then start_ s1 else (s1, [])

/-- Run a list of inputs. -/
def run : SourceUpdater → List Input → SourceUpdater
  | s, [] => s
  | s, i :: t => run (step1 s i).1 t

/-- Observable log of a list of inputs. -/
def log : SourceUpdater → List Input → List Item
  | _, [] => []
  | s, i :: t => (step1 s i).2 ++ log (step1 s i).1 t

/-- Which inputs the environment can actually deliver in a state: an
`updateend` only while a mutation is in flight, `sourceopen` only while
closed, and a peer `'sourcebufferadded'` only while fewer than two
source buffers exist (there are at most two paired tracks). -/
def validIn (s : SourceUpdater) : Input → Bool
  | .evUpdateend _ => s.sbUpdating
  | .evSourceopen => s.msReadyState = RS.closed
  | .evSourcebufferadded => s.sbCount < 2
  | _ => true

/-- Validity of a whole input trace. -/
def validTrace : SourceUpdater → List Input → Bool
  | _, [] => true
  | s, i :: t => validIn s i && validTrace (step1 s i).1 t

/-- The reachable states: constructor outcomes closed under valid steps. -/
inductive Reach : SourceUpdater → Prop
  | init (rs : RS) (em : Bool) (cnt : Nat) (s : SourceUpdater) (evs : List Item)
      (h : initSU rs em cnt = some (s, evs)) : Reach s
  | next (s : SourceUpdater) (i : Input) (hs : Reach s)
      (hv : validIn s i = true) : Reach (step1 s i).1

/-- The constructed state for given constructor arguments (the base
record when construction throws); `initSU_getInit` relates it to
`initSU` on the non-throwing cases. -/
def getInit (rs : RS) (em : Bool) (cnt : Nat) : SourceUpdater :=
  match initSU rs em cnt with
  | some p => p.1
  | none => baseState rs em cnt

/-- The state after a successful `dispose` (the input state otherwise). -/
def getDispose (s : SourceUpdater) : SourceUpdater :=
  match dispose s with
  | some p => p.1
  | none => s

/-! ## Ghost observables over logs and states -/

/-- The callback ids invoked in an item log, in order. -/
def fired : List Item → List Nat
  | [] => []
  | Item.cb c _ :: t => c :: fired t
  | _ :: t => fired t

/-- The completion callbacks still owed by a state, in order: the
stashed pending callback, then the `done`s remaining in the queue. -/
def stateDones (s : SourceUpdater) : List Nat :=
  s.pendingCallback_.toList ++ s.callbacks_.filterMap Prod.snd

/-- The callback ids an input enqueues in state `s` (the `done` of an
append always; of a remove/abort only when `processedAppend_` is set). -/
def enqOf (s : SourceUpdater) : Input → List Nat
  | .callAppend done => done.toList
  | .callRemove _ _ done => if s.processedAppend_ then done.toList else []
  | .callAbort done => if s.processedAppend_ then done.toList else []
  | _ => []

/-- The callback ids enqueued along a trace, in enqueue order. -/
def enqSeq : SourceUpdater → List Input → List Nat
  | _, [] => []
  | s, i :: t => enqOf s i ++ enqSeq (step1 s i).1 t

/-- The action kinds an input enqueues in state `s`. -/
def enqKindOf (s : SourceUpdater) : Input → List OpKind
  | .callAppend _ => [OpKind.append]
  | .callRemove a b _ => if s.processedAppend_ then [OpKind.remove a b] else []
  | .callAbort _ => if s.processedAppend_ then [OpKind.abort] else []
  | .callTimestampOffset (some v) => [OpKind.setOffset v]
  | _ => []

/-- The action kinds enqueued along a trace, in enqueue order. -/
def enqKindSeq : SourceUpdater → List Input → List OpKind
  | _, [] => []
  | s, i :: t => enqKindOf s i ++ enqKindSeq (step1 s i).1 t

/-- The kinds dispatched in an item log, in order. -/
def dispKinds : List Item → List OpKind
  | [] => []
  | Item.disp k :: t => k :: dispKinds t
  | _ :: t => dispKinds t

/-- Kinds whose dispatch starts an asynchronous mutation (one that owes
a completion notification). -/
def busyK : OpKind → Bool
  | .append => true
  | .remove _ _ => true
  | .abort => true
  | .setOffset _ => false

/-- Scan an item log with `b` = "an asynchronous mutation is in flight":
`true` iff no asynchronous mutation is ever dispatched while one is
already in flight (a completion notification clears the flag, a busy
dispatch sets it). -/
def okFrom (b : Bool) : List Item → Bool
  | [] => true
  | Item.note _ :: t => okFrom false t
  | Item.disp k :: t =>
    if busyK k then !b && okFrom true t else okFrom b t
  | _ :: t => okFrom b t

/-- The in-flight flag after scanning an item log. -/
def updFold (b : Bool) : List Item → Bool
  | [] => b
  | Item.note _ :: t => updFold false t
  | Item.disp k :: t => if busyK k then updFold true t else updFold b t
  | _ :: t => updFold b t

/-! ### Sanity checks on concrete executions (kept as `example`s) -/

/-- One append then its notification: dispatch, then callback, in order. -/
example :
    log (getInit RS.opened false 0)
        [Input.callAppend (some 1), Input.evUpdateend false] =
      [Item.disp OpKind.append, Item.note false, Item.cb 1 none] := by decide

/-- Two appends: FIFO dispatch, callbacks in order, exactly once. -/
example :
    log (getInit RS.opened false 0)
        [Input.callAppend (some 1), Input.callAppend (some 2),
         Input.evUpdateend false, Input.evUpdateend false] =
      [Item.disp OpKind.append, Item.note false, Item.cb 1 none,
       Item.disp OpKind.append, Item.note false, Item.cb 2 none] := by decide

/-- A remove before any append is a complete no-op. -/
example :
    step1 (getInit RS.opened false 0) (Input.callRemove 0 10 (some 4)) =
      (getInit RS.opened false 0, []) := by decide

/-- With an emitter and a single source buffer, an append is held; the
pairing notification starts the instance, which then dispatches it. -/
example :
    log (getInit RS.opened true 0)
        [Input.callAppend (some 3), Input.evSourcebufferadded] =
      [Item.disp OpKind.append] ∧
    (run (getInit RS.opened true 0) [Input.callAppend (some 3)]).started_ = false := by
  decide

/-! ## Helper lemmas -/

theorem fired_append (l1 l2 : List Item) : fired (l1 ++ l2) = fired l1 ++ fired l2 := by
  induction l1 with
  | nil => rfl
  | cons x t ih => cases x <;> simp [fired, ih]

theorem dispKinds_append (l1 l2 : List Item) :
    dispKinds (l1 ++ l2) = dispKinds l1 ++ dispKinds l2 := by
  induction l1 with
  | nil => rfl
  | cons x t ih => cases x <;> simp [dispKinds, ih]

theorem updFold_append (b : Bool) (l1 l2 : List Item) :
    updFold b (l1 ++ l2) = updFold (updFold b l1) l2 := by
  induction l1 generalizing b with
  | nil => rfl
  | cons x t ih =>
    cases x with
    | disp k => cases hk : busyK k <;> simp [updFold, hk, ih]
    | _ => simp [updFold, ih]

theorem okFrom_append (b : Bool) (l1 l2 : List Item) :
    okFrom b (l1 ++ l2) = (okFrom b l1 && okFrom (updFold b l1) l2) := by
  induction l1 generalizing b with
  | nil => simp [okFrom, updFold]
  | cons x t ih =>
    cases x with
    | disp k => cases hk : busyK k <;> cases b <;> simp [okFrom, updFold, hk, ih]
    | _ => simp [okFrom, updFold, ih]

/-- When the dispatch guard fails, `runCallback_` does nothing. -/
theorem runCallback_guard_false (s : SourceUpdater)
    (h : (!(updating s) && !s.callbacks_.isEmpty && s.started_) = false) :
    runCallback_ s = (s, []) := by
  unfold runCallback_
  simp [h]

/-- When the dispatch guard holds, `runCallback_` pops the head, stashes
its `done` as pending and invokes its action. -/
theorem runCallback_guard_true (s : SourceUpdater) (k : OpKind) (d : Option Nat)
    (rest : List (OpKind × Option Nat)) (hq : s.callbacks_ = (k, d) :: rest)
    (h : (!(updating s) && !s.callbacks_.isEmpty && s.started_) = true) :
    runCallback_ s = applyAction k { s with callbacks_ := rest, pendingCallback_ := d } := by
  unfold runCallback_
  simp only [h, if_true]
  rw [hq]

/-- Components of a true dispatch guard. -/
theorem guard_components (s : SourceUpdater)
    (h : (!(updating s) && !s.callbacks_.isEmpty && s.started_) = true) :
    s.hasSourceBuffer = true ∧ s.sbUpdating = false ∧ s.pendingCallback_ = none ∧
    s.callbacks_.isEmpty = false ∧ s.started_ = true := by
  simp only [Bool.and_eq_true, Bool.not_eq_true', updating, Bool.or_eq_false_iff,
    Bool.not_eq_false'] at h
  refine ⟨h.1.1.1.1, h.1.1.1.2, ?_, h.1.2, h.2⟩
  have := h.1.1.2
  cases hp : s.pendingCallback_ <;> simp_all

theorem applyAction_fst (k : OpKind) (s : SourceUpdater) :
    (applyAction k s).1 =
      if busyK k then { s with sbUpdating := true }
      else
        match k with
        | OpKind.setOffset v => { s with sbTimestampOffset := v }
        | _ => s := by
  cases k <;> rfl

theorem applyAction_snd (k : OpKind) (s : SourceUpdater) :
    (applyAction k s).2 = [Item.disp k] := by
  cases k <;> rfl

/-- Everything `runCallback_` leaves intact, plus what it emits: no
callback invocations, the owed callbacks unchanged, the queue shortened
exactly by the dispatched kinds, and the in-flight scan preserved. -/
theorem runCallback_facts (s : SourceUpdater) :
    fired (runCallback_ s).2 = [] ∧
    stateDones (runCallback_ s).1 = stateDones s ∧
    dispKinds (runCallback_ s).2 ++ (runCallback_ s).1.callbacks_.map Prod.fst
      = s.callbacks_.map Prod.fst ∧
    okFrom s.sbUpdating (runCallback_ s).2 = true ∧
    updFold s.sbUpdating (runCallback_ s).2 = (runCallback_ s).1.sbUpdating ∧
    (runCallback_ s).1.started_ = s.started_ ∧
    (runCallback_ s).1.processedAppend_ = s.processedAppend_ ∧
    (runCallback_ s).1.timestampOffset_ = s.timestampOffset_ ∧
    (runCallback_ s).1.hasSourceBuffer = s.hasSourceBuffer ∧
    (runCallback_ s).1.subscribedUpdateend = s.subscribedUpdateend ∧
    (runCallback_ s).1.subscribedSourceopen = s.subscribedSourceopen ∧
    (runCallback_ s).1.awaitingPairing = s.awaitingPairing ∧
    (runCallback_ s).1.msReadyState = s.msReadyState ∧
    (runCallback_ s).1.sbCount = s.sbCount ∧
    (runCallback_ s).1.hasEmitter = s.hasEmitter ∧
    (s.started_ = false → runCallback_ s = (s, [])) := by
  by_cases hg : (!(updating s) && !s.callbacks_.isEmpty && s.started_) = true
  · obtain ⟨hsb, hupd, hpend, hne, hst⟩ := guard_components s hg
    match hq : s.callbacks_ with
    | [] => rw [hq] at hne; simp at hne
    | (k, d) :: rest =>
      rw [runCallback_guard_true s k d rest hq hg]
      rw [applyAction_snd, applyAction_fst]
      cases k <;>
        simp_all [busyK, stateDones, fired, dispKinds, okFrom, updFold] <;>
        cases d <;> simp [Option.toList]
  · rw [runCallback_guard_false s (by revert hg; cases h : (!(updating s) && !s.callbacks_.isEmpty && s.started_) <;> simp)]
    simp [fired, dispKinds, okFrom, updFold]

theorem filterMap_single (k : OpKind) (d : Option Nat) :
    List.filterMap Prod.snd [(k, d)] = d.toList := by
  cases d <;> rfl

/-- `queueCallback_` invokes no callback, extends the owed callbacks by
the pushed `done`, extends enqueued kinds by the pushed kind, and keeps
every other field. -/
theorem queueCallback_facts (k : OpKind) (d : Option Nat) (s : SourceUpdater) :
    fired (queueCallback_ k d s).2 = [] ∧
    stateDones (queueCallback_ k d s).1 = stateDones s ++ d.toList ∧
    dispKinds (queueCallback_ k d s).2 ++ (queueCallback_ k d s).1.callbacks_.map Prod.fst
      = s.callbacks_.map Prod.fst ++ [k] ∧
    okFrom s.sbUpdating (queueCallback_ k d s).2 = true ∧
    updFold s.sbUpdating (queueCallback_ k d s).2 = (queueCallback_ k d s).1.sbUpdating ∧
    (queueCallback_ k d s).1.started_ = s.started_ ∧
    (queueCallback_ k d s).1.processedAppend_ = s.processedAppend_ ∧
    (queueCallback_ k d s).1.timestampOffset_ = s.timestampOffset_ ∧
    (queueCallback_ k d s).1.hasSourceBuffer = s.hasSourceBuffer ∧
    (queueCallback_ k d s).1.subscribedUpdateend = s.subscribedUpdateend ∧
    (queueCallback_ k d s).1.subscribedSourceopen = s.subscribedSourceopen ∧
    (queueCallback_ k d s).1.awaitingPairing = s.awaitingPairing ∧
    (queueCallback_ k d s).1.msReadyState = s.msReadyState ∧
    (queueCallback_ k d s).1.sbCount = s.sbCount ∧
    (queueCallback_ k d s).1.hasEmitter = s.hasEmitter ∧
    (s.started_ = false →
      queueCallback_ k d s = ({ s with callbacks_ := s.callbacks_ ++ [(k, d)] }, [])) := by
  unfold queueCallback_
  obtain ⟨h1, h2, h3, h4, h5, h6, h7, h8, h9, h10, h11, h12, h13, h14, h15, h16⟩ :=
    runCallback_facts { s with callbacks_ := s.callbacks_ ++ [(k, d)] }
  refine ⟨h1, ?_, ?_, h4, h5, h6, h7, h8, h9, h10, h11, h12, h13, h14, h15, h16⟩
  · rw [h2]
    simp [stateDones, List.filterMap_append, filterMap_single]
  · rw [h3]
    simp

/-- `start_` sets `started_`, registers the handler, invokes no
callback and preserves the owed callbacks and remaining fields. -/
theorem start_facts (s : SourceUpdater) :
    fired (start_ s).2 = [] ∧
    stateDones (start_ s).1 = stateDones s ∧
    dispKinds (start_ s).2 ++ (start_ s).1.callbacks_.map Prod.fst
      = s.callbacks_.map Prod.fst ∧
    okFrom s.sbUpdating (start_ s).2 = true ∧
    updFold s.sbUpdating (start_ s).2 = (start_ s).1.sbUpdating ∧
    (start_ s).1.started_ = true ∧
    (start_ s).1.subscribedUpdateend = true ∧
    (start_ s).1.processedAppend_ = s.processedAppend_ ∧
    (start_ s).1.timestampOffset_ = s.timestampOffset_ ∧
    (start_ s).1.hasSourceBuffer = s.hasSourceBuffer ∧
    (start_ s).1.subscribedSourceopen = s.subscribedSourceopen ∧
    (start_ s).1.awaitingPairing = s.awaitingPairing ∧
    (start_ s).1.msReadyState = s.msReadyState ∧
    (start_ s).1.sbCount = s.sbCount ∧
    (start_ s).1.hasEmitter = s.hasEmitter := by
  unfold start_
  obtain ⟨h1, h2, h3, h4, h5, h6, h7, h8, h9, h10, h11, h12, h13, h14, h15, _⟩ :=
    runCallback_facts { s with started_ := true, subscribedUpdateend := true }
  exact ⟨h1, h2, h3, h4, h5, by rw [h6], by rw [h10], h7, h8, h9, h11, h12, h13, h14, h15⟩

/-- `createSourceBuffer_` succeeds exactly while the MediaSource is
open, and then proceeds with the updated instance. -/
theorem createSourceBuffer_eq (s : SourceUpdater) :
    createSourceBuffer_ s =
      if s.msReadyState = RS.opened then
        some (createdNext { s with hasSourceBuffer := true, sbCount := s.sbCount + 1 })
      else none := by
  unfold createSourceBuffer_ addSourceBuffer
  by_cases hrs : s.msReadyState = RS.opened <;> simp [hrs]

/-- When `createSourceBuffer_` succeeds it creates the resource, invokes
no callback, preserves the owed callbacks, and dispatches only when it
started the instance. -/
theorem createSourceBuffer_facts (s : SourceUpdater) (r : SourceUpdater × List Item)
    (h : createSourceBuffer_ s = some r) :
    fired r.2 = [] ∧
    stateDones r.1 = stateDones s ∧
    dispKinds r.2 ++ r.1.callbacks_.map Prod.fst = s.callbacks_.map Prod.fst ∧
    okFrom s.sbUpdating r.2 = true ∧
    updFold s.sbUpdating r.2 = r.1.sbUpdating ∧
    r.1.hasSourceBuffer = true ∧
    r.1.processedAppend_ = s.processedAppend_ ∧
    r.1.timestampOffset_ = s.timestampOffset_ ∧
    r.1.subscribedSourceopen = s.subscribedSourceopen ∧
    r.1.msReadyState = s.msReadyState ∧
    r.1.hasEmitter = s.hasEmitter ∧
    (r.1.started_ = false → dispKinds r.2 = [] ∧ r.1.started_ = s.started_) ∧
    (s.started_ = true → r.1.started_ = true) := by
  rw [createSourceBuffer_eq] at h
  by_cases hrs : s.msReadyState = RS.opened
  · rw [if_pos hrs] at h
    injection h with h
    subst h
    unfold createdNext
    split
    · split
      · simp [stateDones, fired, dispKinds, okFrom, updFold]
      · obtain ⟨g1, g2, g3, g4, g5, g6, g7, g8, g9, g10, g11, g12, g13, g14, g15⟩ :=
          start_facts { s with hasSourceBuffer := true, sbCount := s.sbCount + 1 }
        refine ⟨?_, ?_, ?_, ?_, ?_, ?_, ?_, ?_, ?_, ?_, ?_, ?_, ?_⟩
        · simpa [fired] using g1
        · simpa [stateDones] using g2
        · simpa [dispKinds] using g3
        · simpa [okFrom] using g4
        · simpa [updFold] using g5
        · simpa using g10
        · simpa using g8
        · simpa using g9
        · simpa using g11
        · simpa using g13
        · simpa using g15
        · intro hf; rw [g6] at hf; exact absurd hf (by simp)
        · intro _; exact g6
    · obtain ⟨g1, g2, g3, g4, g5, g6, g7, g8, g9, g10, g11, g12, g13, g14, g15⟩ :=
        start_facts { s with hasSourceBuffer := true, sbCount := s.sbCount + 1 }
      refine ⟨g1, ?_, ?_, ?_, ?_, ?_, ?_, ?_, ?_, ?_, ?_, ?_, ?_⟩
      · simpa [stateDones] using g2
      · simpa [dispKinds] using g3
      · simpa [okFrom] using g4
      · simpa [updFold] using g5
      · simpa using g10
      · simpa using g8
      · simpa using g9
      · simpa using g11
      · simpa using g13
      · simpa using g15
      · intro hf; rw [g6] at hf; exact absurd hf (by simp)
      · intro _; exact g6
  · rw [if_neg hrs] at h; cases h

/-- The `updateend` handler fires exactly the stashed callback (with no
argument), hands the owed callbacks over intact, and dispatches only
when started. -/
theorem onUpdateend_facts (s : SourceUpdater) :
    fired (onUpdateendCallback_ s).2 ++ stateDones (onUpdateendCallback_ s).1
      = stateDones s ∧
    dispKinds (onUpdateendCallback_ s).2
        ++ (onUpdateendCallback_ s).1.callbacks_.map Prod.fst
      = s.callbacks_.map Prod.fst ∧
    okFrom s.sbUpdating (onUpdateendCallback_ s).2 = true ∧
    updFold s.sbUpdating (onUpdateendCallback_ s).2
      = (onUpdateendCallback_ s).1.sbUpdating ∧
    (onUpdateendCallback_ s).1.started_ = s.started_ ∧
    (onUpdateendCallback_ s).1.processedAppend_ = s.processedAppend_ ∧
    (onUpdateendCallback_ s).1.timestampOffset_ = s.timestampOffset_ ∧
    (onUpdateendCallback_ s).1.hasSourceBuffer = s.hasSourceBuffer ∧
    (onUpdateendCallback_ s).1.awaitingPairing = s.awaitingPairing ∧
    (onUpdateendCallback_ s).1.subscribedUpdateend = s.subscribedUpdateend ∧
    (onUpdateendCallback_ s).1.subscribedSourceopen = s.subscribedSourceopen ∧
    (onUpdateendCallback_ s).1.msReadyState = s.msReadyState ∧
    (onUpdateendCallback_ s).1.sbCount = s.sbCount ∧
    (s.started_ = false → dispKinds (onUpdateendCallback_ s).2 = []) := by
  obtain ⟨h1, h2, h3, h4, h5, h6, h7, h8, h9, h10, h11, h12, h13, h14, h15, h16⟩ :=
    runCallback_facts { s with pendingCallback_ := none }
  cases hp : s.pendingCallback_ with
  | none =>
    simp only [onUpdateendCallback_, hp]
    refine ⟨?_, ?_, h4, h5, h6, h7, h8, h9, h12, h10, h11, h13, h14, ?_⟩
    · rw [h2]
      simp [h1, stateDones, hp]
    · simpa using h3
    · intro hst
      rw [h16 hst]
      simp [dispKinds]
  | some c =>
    simp only [onUpdateendCallback_, hp]
    refine ⟨?_, ?_, ?_, ?_, h6, h7, h8, h9, h12, h10, h11, h13, h14, ?_⟩
    · rw [fired_append, h2]
      simp [h1, stateDones, fired, hp]
    · simp only [dispKinds_append]
      simpa [dispKinds] using h3
    · simpa [okFrom_append, okFrom, updFold] using h4
    · simpa [updFold_append, updFold] using h5
    · intro hst
      rw [h16 hst]
      simp [dispKinds_append, dispKinds]

/-- One step fires no owed callback out of order: the fired callbacks
followed by the still-owed ones equal the previously owed ones followed
by the newly enqueued ones. -/
theorem step1_dones (s : SourceUpdater) (i : Input) :
    fired (step1 s i).2 ++ stateDones (step1 s i).1 = stateDones s ++ enqOf s i := by
  cases i with
  | callAppend done =>
    obtain ⟨q1, q2, -⟩ := queueCallback_facts OpKind.append done { s with processedAppend_ := true }
    simp only [step1]
    rw [q1, q2]
    simp [stateDones, enqOf]
  | callRemove a b done =>
    simp only [step1]
    split
    · obtain ⟨q1, q2, -⟩ := queueCallback_facts (OpKind.remove a b) done s
      rw [q1, q2]
      simp_all [enqOf]
    · simp_all [fired, enqOf]
  | callAbort done =>
    simp only [step1]
    split
    · obtain ⟨q1, q2, -⟩ := queueCallback_facts OpKind.abort done s
      rw [q1, q2]
      simp_all [enqOf]
    · simp_all [fired, enqOf]
  | callTimestampOffset off =>
    cases off with
    | some v =>
      obtain ⟨q1, q2, -⟩ := queueCallback_facts (OpKind.setOffset v) none s
      show fired (queueCallback_ (OpKind.setOffset v) none s).2
          ++ stateDones { (queueCallback_ (OpKind.setOffset v) none s).1 with
                          timestampOffset_ := v }
        = stateDones s ++ enqOf s (Input.callTimestampOffset (some v))
      rw [q1]
      have hsd : stateDones { (queueCallback_ (OpKind.setOffset v) none s).1 with
          timestampOffset_ := v } = stateDones (queueCallback_ (OpKind.setOffset v) none s).1 := rfl
      rw [hsd, q2]
      simp [enqOf]
    | none => simp [step1, timestampOffset, fired, enqOf]
  | evUpdateend failed =>
    simp only [step1]
    split
    · obtain ⟨o1, -⟩ := onUpdateend_facts { s with sbUpdating := false }
      simpa [fired, enqOf, stateDones] using o1
    · simp [fired, stateDones, enqOf]
  | evSourceopen =>
    simp only [step1]
    split
    · cases hr : createSourceBuffer_ { s with msReadyState := RS.opened } with
      | none => simp [hr, stateDones, fired, enqOf]
      | some r =>
        obtain ⟨f1, f2, -⟩ := createSourceBuffer_facts _ r hr
        simp only [hr]
        rw [f1, f2]
        simp [stateDones, enqOf]
    · simp [stateDones, fired, enqOf]
  | evSourcebufferadded =>
    simp only [step1]
    split
    · obtain ⟨g1, g2, -⟩ := start_facts { s with sbCount := s.sbCount + 1 }
      rw [g1, g2]
      simp [stateDones, enqOf]
    · simp [stateDones, fired, enqOf]

/-- One step dispatches only from the front of the queue: the dispatched
kinds followed by the remaining queued kinds equal the previously queued
kinds followed by the newly enqueued ones. -/
theorem step1_kinds (s : SourceUpdater) (i : Input) :
    dispKinds (step1 s i).2 ++ (step1 s i).1.callbacks_.map Prod.fst
      = s.callbacks_.map Prod.fst ++ enqKindOf s i := by
  cases i with
  | callAppend done =>
    obtain ⟨-, -, q3, -⟩ := queueCallback_facts OpKind.append done { s with processedAppend_ := true }
    simp only [step1]
    rw [q3]
    simp [enqKindOf]
  | callRemove a b done =>
    simp only [step1]
    split
    · obtain ⟨-, -, q3, -⟩ := queueCallback_facts (OpKind.remove a b) done s
      rw [q3]
      simp_all [enqKindOf]
    · simp_all [dispKinds, enqKindOf]
  | callAbort done =>
    simp only [step1]
    split
    · obtain ⟨-, -, q3, -⟩ := queueCallback_facts OpKind.abort done s
      rw [q3]
      simp_all [enqKindOf]
    · simp_all [dispKinds, enqKindOf]
  | callTimestampOffset off =>
    cases off with
    | some v =>
      obtain ⟨-, -, q3, -⟩ := queueCallback_facts (OpKind.setOffset v) none s
      simpa [step1, timestampOffset, enqKindOf] using q3
    | none => simp [step1, timestampOffset, dispKinds, enqKindOf]
  | evUpdateend failed =>
    simp only [step1]
    split
    · obtain ⟨-, o2, -⟩ := onUpdateend_facts { s with sbUpdating := false }
      simpa [dispKinds, enqKindOf] using o2
    · simp [dispKinds, enqKindOf]
  | evSourceopen =>
    simp only [step1]
    split
    · cases hr : createSourceBuffer_ { s with msReadyState := RS.opened } with
      | none => simp [hr, dispKinds, enqKindOf]
      | some r =>
        obtain ⟨-, -, f3, -⟩ := createSourceBuffer_facts _ r hr
        simp only [hr]
        rw [f3]
        simp [enqKindOf]
    · simp [dispKinds, enqKindOf]
  | evSourcebufferadded =>
    simp only [step1]
    split
    · obtain ⟨-, -, g3, -⟩ := start_facts { s with sbCount := s.sbCount + 1 }
      rw [g3]
      simp [enqKindOf]
    · simp [dispKinds, enqKindOf]

/-- One step never dispatches an asynchronous mutation while one is in
flight, and the in-flight scan tracks the resource's busy flag. -/
theorem step1_ok (s : SourceUpdater) (i : Input) :
    okFrom s.sbUpdating (step1 s i).2 = true ∧
    updFold s.sbUpdating (step1 s i).2 = (step1 s i).1.sbUpdating := by
  cases i with
  | callAppend done =>
    obtain ⟨-, -, -, q4, q5, -⟩ :=
      queueCallback_facts OpKind.append done { s with processedAppend_ := true }
    simp only [step1]
    exact ⟨q4, q5⟩
  | callRemove a b done =>
    simp only [step1]
    split
    · obtain ⟨-, -, -, q4, q5, -⟩ := queueCallback_facts (OpKind.remove a b) done s
      exact ⟨q4, q5⟩
    · simp [okFrom, updFold]
  | callAbort done =>
    simp only [step1]
    split
    · obtain ⟨-, -, -, q4, q5, -⟩ := queueCallback_facts OpKind.abort done s
      exact ⟨q4, q5⟩
    · simp [okFrom, updFold]
  | callTimestampOffset off =>
    cases off with
    | some v =>
      obtain ⟨-, -, -, q4, q5, -⟩ := queueCallback_facts (OpKind.setOffset v) none s
      exact ⟨q4, q5⟩
    | none => simp [step1, timestampOffset, okFrom, updFold]
  | evUpdateend failed =>
    simp only [step1]
    split
    · obtain ⟨-, -, o3, o4, -⟩ := onUpdateend_facts { s with sbUpdating := false }
      constructor
      · simpa [okFrom] using o3
      · simpa [updFold] using o4
    · simp [okFrom, updFold]
  | evSourceopen =>
    simp only [step1]
    split
    · cases hr : createSourceBuffer_ { s with msReadyState := RS.opened } with
      | none => simp [hr, okFrom, updFold]
      | some r =>
        obtain ⟨-, -, -, f4, f5, -⟩ := createSourceBuffer_facts _ r hr
        simp only [hr]
        exact ⟨f4, f5⟩
    · simp [okFrom, updFold]
  | evSourcebufferadded =>
    simp only [step1]
    split
    · obtain ⟨-, -, -, g4, g5, -⟩ := start_facts { s with sbCount := s.sbCount + 1 }
      exact ⟨g4, g5⟩
    · simp [okFrom, updFold]

/-- `started_` is monotone: no transition unsets it. -/
theorem step1_started_mono (s : SourceUpdater) (i : Input) (h : s.started_ = true) :
    (step1 s i).1.started_ = true := by
  cases i with
  | callAppend done =>
    obtain ⟨-, -, -, -, -, q6, -⟩ :=
      queueCallback_facts OpKind.append done { s with processedAppend_ := true }
    simp only [step1]
    rw [q6]
    exact h
  | callRemove a b done =>
    simp only [step1]
    split
    · obtain ⟨-, -, -, -, -, q6, -⟩ := queueCallback_facts (OpKind.remove a b) done s
      rw [q6]; exact h
    · exact h
  | callAbort done =>
    simp only [step1]
    split
    · obtain ⟨-, -, -, -, -, q6, -⟩ := queueCallback_facts OpKind.abort done s
      rw [q6]; exact h
    · exact h
  | callTimestampOffset off =>
    cases off with
    | some v =>
      obtain ⟨-, -, -, -, -, q6, -⟩ := queueCallback_facts (OpKind.setOffset v) none s
      show (queueCallback_ (OpKind.setOffset v) none s).1.started_ = true
      rw [q6]; exact h
    | none => exact h
  | evUpdateend failed =>
    simp only [step1]
    split
    · obtain ⟨-, -, -, -, o5, -⟩ := onUpdateend_facts { s with sbUpdating := false }
      show (onUpdateendCallback_ { s with sbUpdating := false }).1.started_ = true
      rw [o5]; exact h
    · exact h
  | evSourceopen =>
    simp only [step1]
    split
    · cases hr : createSourceBuffer_ { s with msReadyState := RS.opened } with
      | none => simp only [hr]; exact h
      | some r =>
        obtain ⟨-, -, -, -, -, -, -, -, -, -, -, -, f13⟩ := createSourceBuffer_facts _ r hr
        simp only [hr]
        exact f13 h
    · exact h
  | evSourcebufferadded =>
    simp only [step1]
    split
    · obtain ⟨-, -, -, -, -, g6, -⟩ := start_facts { s with sbCount := s.sbCount + 1 }
      exact g6
    · exact h

/-- A step that ends in a not-yet-started state dispatched nothing. -/
theorem step1_noDisp (s : SourceUpdater) (i : Input)
    (h : (step1 s i).1.started_ = false) : dispKinds (step1 s i).2 = [] := by
  cases i with
  | callAppend done =>
    obtain ⟨-, -, -, -, -, q6, -, -, -, -, -, -, -, -, -, q16⟩ :=
      queueCallback_facts OpKind.append done { s with processedAppend_ := true }
    simp only [step1] at h ⊢
    rw [q6] at h
    rw [q16 h]
    simp [dispKinds]
  | callRemove a b done =>
    simp only [step1] at h ⊢
    split at h
    · obtain ⟨-, -, -, -, -, q6, -, -, -, -, -, -, -, -, -, q16⟩ :=
        queueCallback_facts (OpKind.remove a b) done s
      rw [q6] at h
      simp_all [q16 h, dispKinds]
    · simp_all [dispKinds]
  | callAbort done =>
    simp only [step1] at h ⊢
    split at h
    · obtain ⟨-, -, -, -, -, q6, -, -, -, -, -, -, -, -, -, q16⟩ :=
        queueCallback_facts OpKind.abort done s
      rw [q6] at h
      simp_all [q16 h, dispKinds]
    · simp_all [dispKinds]
  | callTimestampOffset off =>
    cases off with
    | some v =>
      obtain ⟨-, -, -, -, -, q6, -, -, -, -, -, -, -, -, -, q16⟩ :=
        queueCallback_facts (OpKind.setOffset v) none s
      have h' : (queueCallback_ (OpKind.setOffset v) none s).1.started_ = false := h
      rw [q6] at h'
      show dispKinds (queueCallback_ (OpKind.setOffset v) none s).2 = []
      rw [q16 h']
      simp [dispKinds]
    | none => simp [step1, timestampOffset, dispKinds]
  | evUpdateend failed =>
    simp only [step1] at h ⊢
    split at h
    · obtain ⟨-, -, -, -, o5, -, -, -, -, -, -, -, -, o14⟩ :=
        onUpdateend_facts { s with sbUpdating := false }
      have h' : (onUpdateendCallback_ { s with sbUpdating := false }).1.started_ = false := h
      rw [o5] at h'
      simp_all [dispKinds, o14 h']
    · simp_all [dispKinds]
  | evSourceopen =>
    simp only [step1] at h ⊢
    by_cases hso : s.subscribedSourceopen = true
    · have hso' : ({ s with msReadyState := RS.opened }).subscribedSourceopen = true := hso
      rw [if_pos hso'] at h ⊢
      cases hr : createSourceBuffer_ { s with msReadyState := RS.opened } with
      | none => simp [hr, dispKinds]
      | some r =>
        rw [hr] at h
        obtain ⟨-, -, -, -, -, -, -, -, -, -, -, f12, -⟩ := createSourceBuffer_facts _ r hr
        simp only [hr]
        exact (f12 h).1
    · have hso' : ¬ ({ s with msReadyState := RS.opened }).subscribedSourceopen = true := hso
      rw [if_neg hso']
      simp [dispKinds]
  | evSourcebufferadded =>
    simp only [step1] at h ⊢
    by_cases hap : s.awaitingPairing = true
    · have hap' : ({ s with sbCount := s.sbCount + 1 }).awaitingPairing = true := hap
      rw [if_pos hap'] at h ⊢
      obtain ⟨-, -, -, -, -, g6, -⟩ := start_facts { s with sbCount := s.sbCount + 1 }
      rw [g6] at h
      cases h
    · have hap' : ¬ ({ s with sbCount := s.sbCount + 1 }).awaitingPairing = true := hap
      rw [if_neg hap']
      simp [dispKinds]

/-- The `processedAppend_` flag is sticky: once set, every transition
preserves it. -/
theorem step1_pa_sticky (s : SourceUpdater) (i : Input)
    (h : s.processedAppend_ = true) : (step1 s i).1.processedAppend_ = true := by
  cases i with
  | callAppend done =>
    obtain ⟨-, -, -, -, -, -, q7, -⟩ :=
      queueCallback_facts OpKind.append done { s with processedAppend_ := true }
    simp only [step1]
    rw [q7]
  | callRemove a b done =>
    obtain ⟨-, -, -, -, -, -, q7, -⟩ := queueCallback_facts (OpKind.remove a b) done s
    simp only [step1]
    rw [if_pos h, q7]
    exact h
  | callAbort done =>
    obtain ⟨-, -, -, -, -, -, q7, -⟩ := queueCallback_facts OpKind.abort done s
    simp only [step1]
    rw [if_pos h, q7]
    exact h
  | callTimestampOffset off =>
    cases off with
    | some v =>
      obtain ⟨-, -, -, -, -, -, q7, -⟩ := queueCallback_facts (OpKind.setOffset v) none s
      show (queueCallback_ (OpKind.setOffset v) none s).1.processedAppend_ = true
      rw [q7]; exact h
    | none => exact h
  | evUpdateend failed =>
    simp only [step1]
    split
    · obtain ⟨-, -, -, -, -, o6, -⟩ := onUpdateend_facts { s with sbUpdating := false }
      show (onUpdateendCallback_ { s with sbUpdating := false }).1.processedAppend_ = true
      rw [o6]; exact h
    · exact h
  | evSourceopen =>
    simp only [step1]
    split
    · cases hr : createSourceBuffer_ { s with msReadyState := RS.opened } with
      | none => simp only [hr]; exact h
      | some r =>
        obtain ⟨-, -, -, -, -, -, f7, -⟩ := createSourceBuffer_facts _ r hr
        simp only [hr]
        rw [f7]; exact h
    · exact h
  | evSourcebufferadded =>
    simp only [step1]
    split
    · obtain ⟨-, -, -, -, -, -, -, g8, -⟩ := start_facts { s with sbCount := s.sbCount + 1 }
      rw [g8]; exact h
    · exact h

/-- Only `timestampOffset` with a defined argument changes the cached
offset. -/
theorem step1_tso_preserved (s : SourceUpdater) (i : Input)
    (h : ∀ v, i ≠ Input.callTimestampOffset (some v)) :
    (step1 s i).1.timestampOffset_ = s.timestampOffset_ := by
  cases i with
  | callAppend done =>
    obtain ⟨-, -, -, -, -, -, -, q8, -⟩ :=
      queueCallback_facts OpKind.append done { s with processedAppend_ := true }
    simp only [step1]
    rw [q8]
  | callRemove a b done =>
    simp only [step1]
    split
    · obtain ⟨-, -, -, -, -, -, -, q8, -⟩ := queueCallback_facts (OpKind.remove a b) done s
      rw [q8]
    · rfl
  | callAbort done =>
    simp only [step1]
    split
    · obtain ⟨-, -, -, -, -, -, -, q8, -⟩ := queueCallback_facts OpKind.abort done s
      rw [q8]
    · rfl
  | callTimestampOffset off =>
    cases off with
    | some v => exact absurd rfl (h v)
    | none => rfl
  | evUpdateend failed =>
    simp only [step1]
    split
    · obtain ⟨-, -, -, -, -, -, o7, -⟩ := onUpdateend_facts { s with sbUpdating := false }
      show (onUpdateendCallback_ { s with sbUpdating := false }).1.timestampOffset_
        = s.timestampOffset_
      rw [o7]
    · rfl
  | evSourceopen =>
    simp only [step1]
    split
    · cases hr : createSourceBuffer_ { s with msReadyState := RS.opened } with
      | none => simp only [hr]
      | some r =>
        obtain ⟨-, -, -, -, -, -, -, f8, -⟩ := createSourceBuffer_facts _ r hr
        simp only [hr]
        rw [f8]
    · rfl
  | evSourcebufferadded =>
    simp only [step1]
    split
    · obtain ⟨-, -, -, -, -, -, -, -, g9, -⟩ := start_facts { s with sbCount := s.sbCount + 1 }
      rw [g9]
    · rfl

theorem run_cons (s : SourceUpdater) (i : Input) (t : List Input) :
    run s (i :: t) = run (step1 s i).1 t := rfl

theorem log_cons (s : SourceUpdater) (i : Input) (t : List Input) :
    log s (i :: t) = (step1 s i).2 ++ log (step1 s i).1 t := rfl

/-- Trace invariant: the callbacks fired so far followed by the ones
still owed equal the ones owed at the start followed by the ones
enqueued along the trace — exactly-once, in enqueue order. -/
theorem trace_dones (t : List Input) (s : SourceUpdater) :
    fired (log s t) ++ stateDones (run s t) = stateDones s ++ enqSeq s t := by
  induction t generalizing s with
  | nil => simp [log, run, enqSeq, fired]
  | cons i t ih =>
    rw [log_cons, run_cons, fired_append, List.append_assoc, ih (step1 s i).1,
      ← List.append_assoc, step1_dones, List.append_assoc]
    rfl

/-- Trace invariant: the kinds dispatched so far followed by the kinds
still queued equal the kinds queued at the start followed by the kinds
enqueued along the trace — dispatch happens in enqueue order. -/
theorem trace_kinds (t : List Input) (s : SourceUpdater) :
    dispKinds (log s t) ++ (run s t).callbacks_.map Prod.fst
      = s.callbacks_.map Prod.fst ++ enqKindSeq s t := by
  induction t generalizing s with
  | nil => simp [log, run, enqKindSeq, dispKinds]
  | cons i t ih =>
    rw [log_cons, run_cons, dispKinds_append, List.append_assoc, ih (step1 s i).1,
      ← List.append_assoc, step1_kinds, List.append_assoc]
    rfl

/-- Trace invariant: no asynchronous mutation is dispatched while one is
in flight, and the in-flight scan tracks the resource's busy flag. -/
theorem trace_ok (t : List Input) (s : SourceUpdater) :
    okFrom s.sbUpdating (log s t) = true ∧
    updFold s.sbUpdating (log s t) = (run s t).sbUpdating := by
  induction t generalizing s with
  | nil => exact ⟨rfl, rfl⟩
  | cons i t ih =>
    obtain ⟨ih1, ih2⟩ := ih (step1 s i).1
    obtain ⟨k1, k2⟩ := step1_ok s i
    constructor
    · rw [log_cons, okFrom_append, k1, k2, ih1]
      rfl
    · rw [log_cons, updFold_append, k2, run_cons, ih2]

theorem run_started_mono (t : List Input) (s : SourceUpdater)
    (h : s.started_ = true) : (run s t).started_ = true := by
  induction t generalizing s with
  | nil => exact h
  | cons i t ih => exact ih (step1 s i).1 (step1_started_mono s i h)

/-- A trace ending in a not-yet-started state never dispatched. -/
theorem trace_noDisp (t : List Input) (s : SourceUpdater)
    (h : (run s t).started_ = false) : dispKinds (log s t) = [] := by
  induction t generalizing s with
  | nil => rfl
  | cons i t ih =>
    have hstep : (step1 s i).1.started_ = false := by
      cases hst : (step1 s i).1.started_ with
      | false => rfl
      | true =>
        rw [run_cons] at h
        rw [run_started_mono t (step1 s i).1 hst] at h
        cases h
    rw [log_cons, dispKinds_append, step1_noDisp s i hstep, ih (step1 s i).1 h]
    rfl

theorem run_pa_sticky (t : List Input) (s : SourceUpdater)
    (h : s.processedAppend_ = true) : (run s t).processedAppend_ = true := by
  induction t generalizing s with
  | nil => exact h
  | cons i t ih => exact ih (step1 s i).1 (step1_pa_sticky s i h)

theorem reach_run (s : SourceUpdater) (t : List Input) (hs : Reach s)
    (hv : validTrace s t = true) : Reach (run s t) := by
  induction t generalizing s with
  | nil => exact hs
  | cons i t ih =>
    rw [validTrace, Bool.and_eq_true] at hv
    exact ih (step1 s i).1 (Reach.next s i hs hv.1) hv.2

/-- Structural invariant of reachable states: a started or pairing
instance has its SourceBuffer. -/
def InvSB (s : SourceUpdater) : Prop :=
  (s.started_ = true → s.hasSourceBuffer = true) ∧
  (s.awaitingPairing = true → s.hasSourceBuffer = true)

theorem initSU_invSB (rs : RS) (em : Bool) (cnt : Nat) (s : SourceUpdater)
    (evs : List Item) (h : initSU rs em cnt = some (s, evs)) : InvSB s := by
  unfold initSU at h
  split at h
  · injection h with h
    have hs : s = { baseState rs em cnt with subscribedSourceopen := true } :=
      (congrArg Prod.fst h).symm
    subst hs
    exact ⟨fun hx => by simp [baseState] at hx, fun hx => by simp [baseState] at hx⟩
  · obtain ⟨-, -, -, -, -, f6, -⟩ := createSourceBuffer_facts _ (s, evs) h
    exact ⟨fun _ => f6, fun _ => f6⟩

theorem step1_invSB (s : SourceUpdater) (i : Input) (h : InvSB s) :
    InvSB (step1 s i).1 := by
  cases i with
  | callAppend done =>
    obtain ⟨-, -, -, -, -, q6, -, -, q9, -, -, q12, -⟩ :=
      queueCallback_facts OpKind.append done { s with processedAppend_ := true }
    simp only [step1]
    refine ⟨fun hst => ?_, fun hap => ?_⟩
    · rw [q9]; rw [q6] at hst; exact h.1 hst
    · rw [q9]; rw [q12] at hap; exact h.2 hap
  | callRemove a b done =>
    by_cases hpa : s.processedAppend_ = true
    · obtain ⟨-, -, -, -, -, q6, -, -, q9, -, -, q12, -⟩ :=
        queueCallback_facts (OpKind.remove a b) done s
      simp only [step1]
      rw [if_pos hpa]
      refine ⟨fun hst => ?_, fun hap => ?_⟩
      · rw [q9]; rw [q6] at hst; exact h.1 hst
      · rw [q9]; rw [q12] at hap; exact h.2 hap
    · simp only [step1]
      rw [if_neg hpa]
      exact h
  | callAbort done =>
    by_cases hpa : s.processedAppend_ = true
    · obtain ⟨-, -, -, -, -, q6, -, -, q9, -, -, q12, -⟩ :=
        queueCallback_facts OpKind.abort done s
      simp only [step1]
      rw [if_pos hpa]
      refine ⟨fun hst => ?_, fun hap => ?_⟩
      · rw [q9]; rw [q6] at hst; exact h.1 hst
      · rw [q9]; rw [q12] at hap; exact h.2 hap
    · simp only [step1]
      rw [if_neg hpa]
      exact h
  | callTimestampOffset off =>
    cases off with
    | some v =>
      obtain ⟨-, -, -, -, -, q6, -, -, q9, -, -, q12, -⟩ :=
        queueCallback_facts (OpKind.setOffset v) none s
      have hinv : InvSB (queueCallback_ (OpKind.setOffset v) none s).1 := by
        refine ⟨fun hst => ?_, fun hap => ?_⟩
        · rw [q9]; rw [q6] at hst; exact h.1 hst
        · rw [q9]; rw [q12] at hap; exact h.2 hap
      exact hinv
    | none => exact h
  | evUpdateend failed =>
    by_cases hsub : s.subscribedUpdateend = true
    · have hsub' : ({ s with sbUpdating := false }).subscribedUpdateend = true := hsub
      simp only [step1]
      rw [if_pos hsub']
      obtain ⟨-, -, -, -, o5, -, -, o8, o9, -⟩ := onUpdateend_facts { s with sbUpdating := false }
      refine ⟨fun hst => ?_, fun hap => ?_⟩
      · rw [o8]; rw [o5] at hst; exact h.1 hst
      · rw [o8]; rw [o9] at hap; exact h.2 hap
    · have hsub' : ¬ ({ s with sbUpdating := false }).subscribedUpdateend = true := hsub
      simp only [step1]
      rw [if_neg hsub']
      exact h
  | evSourceopen =>
    by_cases hso : s.subscribedSourceopen = true
    · have hso' : ({ s with msReadyState := RS.opened }).subscribedSourceopen = true := hso
      simp only [step1]
      rw [if_pos hso']
      cases hr : createSourceBuffer_ { s with msReadyState := RS.opened } with
      | none => exact h
      | some r =>
        obtain ⟨-, -, -, -, -, f6, -⟩ := createSourceBuffer_facts _ r hr
        exact ⟨fun _ => f6, fun _ => f6⟩
    · have hso' : ¬ ({ s with msReadyState := RS.opened }).subscribedSourceopen = true := hso
      simp only [step1]
      rw [if_neg hso']
      exact h
  | evSourcebufferadded =>
    by_cases hap : s.awaitingPairing = true
    · have hap' : ({ s with sbCount := s.sbCount + 1 }).awaitingPairing = true := hap
      simp only [step1]
      rw [if_pos hap']
      obtain ⟨-, -, -, -, -, -, -, -, -, g10, -⟩ := start_facts { s with sbCount := s.sbCount + 1 }
      have hsb : s.hasSourceBuffer = true := h.2 hap
      exact ⟨fun _ => by rw [g10]; exact hsb, fun _ => by rw [g10]; exact hsb⟩
    · have hap' : ¬ ({ s with sbCount := s.sbCount + 1 }).awaitingPairing = true := hap
      simp only [step1]
      rw [if_neg hap']
      exact h

theorem reach_invSB (s : SourceUpdater) (h : Reach s) : InvSB s := by
  induction h with
  | init rs em cnt s evs hi => exact initSU_invSB rs em cnt s evs hi
  | next s i hs hv ih => exact step1_invSB s i ih

theorem okFrom_suffix (l1 l2 : List Item) (b : Bool) (h : okFrom b (l1 ++ l2) = true) :
    okFrom (updFold b l1) l2 = true := by
  rw [okFrom_append, Bool.and_eq_true] at h
  exact h.2

theorem updFold_true_of_no_note (l : List Item) (h : ∀ f, Item.note f ∉ l) :
    updFold true l = true := by
  induction l with
  | nil => rfl
  | cons x t ih =>
    have ht : ∀ f, Item.note f ∉ t := fun f hf => h f (List.mem_cons_of_mem x hf)
    cases x with
    | note f => exact absurd (List.mem_cons_self (Item.note f) t) (h f)
    | disp k =>
      cases hk : busyK k
      · simpa [updFold, hk] using ih ht
      · simpa [updFold, hk] using ih ht
    | cb c arg => simpa [updFold] using ih ht
    | trig => simpa [updFold] using ih ht
    | abortCall => simpa [updFold] using ih ht

theorem updFold_false_of_no_disp (l : List Item) (h : dispKinds l = []) :
    updFold false l = false := by
  induction l with
  | nil => rfl
  | cons x t ih =>
    cases x with
    | disp k => simp [dispKinds] at h
    | note f => exact ih (by simpa [dispKinds] using h)
    | cb c arg => exact ih (by simpa [dispKinds] using h)
    | trig => exact ih (by simpa [dispKinds] using h)
    | abortCall => exact ih (by simpa [dispKinds] using h)

/-- From a clean scan, two asynchronous dispatches always have a
completion notification strictly between them. -/
theorem no_double_dispatch (L l1 l2 l3 : List Item) (k1 k2 : OpKind)
    (hok : okFrom false L = true)
    (hL : L = l1 ++ Item.disp k1 :: (l2 ++ Item.disp k2 :: l3))
    (hb1 : busyK k1 = true) (hb2 : busyK k2 = true) :
    ∃ f, Item.note f ∈ l2 := by
  by_contra hno
  push_neg at hno
  subst hL
  have h2 := okFrom_suffix l1 _ false hok
  simp only [okFrom, hb1, if_pos, Bool.and_eq_true] at h2
  have h3 := okFrom_suffix l2 _ true h2.2
  rw [updFold_true_of_no_note l2 hno] at h3
  simp [okFrom, hb2] at h3

/-- What construction guarantees about the initial state and items. -/
theorem initSU_facts (rs : RS) (em : Bool) (cnt : Nat) (s : SourceUpdater)
    (evs : List Item) (h : initSU rs em cnt = some (s, evs)) :
    stateDones s = [] ∧ s.callbacks_ = [] ∧ s.pendingCallback_ = none ∧
    fired evs = [] ∧ s.sbUpdating = false ∧
    okFrom false evs = true ∧ dispKinds evs = [] ∧
    s.timestampOffset_ = 0 ∧ s.processedAppend_ = false := by
  unfold initSU at h
  split at h
  · injection h with h
    have hs : s = { baseState rs em cnt with subscribedSourceopen := true } :=
      (congrArg Prod.fst h).symm
    have hevs : evs = [] := (congrArg Prod.snd h).symm
    subst hs
    subst hevs
    simp [stateDones, baseState, fired, okFrom, dispKinds]
  · obtain ⟨f1, f2, f3, f4, f5, f6, f7, f8, -⟩ := createSourceBuffer_facts _ (s, evs) h
    have hbase : stateDones (baseState rs em cnt) = [] := by simp [stateDones, baseState]
    have hsd : stateDones s = [] := by rw [f2]; exact hbase
    have hq : dispKinds evs = [] ∧ s.callbacks_.map Prod.fst = [] := by
      have := f3
      rw [show (baseState rs em cnt).callbacks_.map Prod.fst = [] from rfl] at this
      exact List.append_eq_nil.mp this
    have hcb : s.callbacks_ = [] := List.map_eq_nil_iff.mp hq.2
    have hpend : s.pendingCallback_ = none := by
      rw [stateDones, hcb] at hsd
      have := (List.append_eq_nil.mp hsd).1
      cases hp : s.pendingCallback_ with
      | none => rfl
      | some c => rw [hp] at this; cases this
    refine ⟨hsd, hcb, hpend, f1, ?_, ?_, hq.1, ?_, ?_⟩
    · rw [← f5]
      exact updFold_false_of_no_disp evs hq.1
    · exact f4
    · rw [f8]; rfl
    · rw [f7]; rfl

/-! ## Concrete states used by witnesses -/

/-- Trace used by the C1 witness: two appends and their notifications. -/
def tC1 : List Input :=
  [Input.callAppend (some 1), Input.callAppend (some 2),
   Input.evUpdateend false, Input.evUpdateend false]

/-- A reachable state whose queue is non-empty while the instance is
idle (an append stalled behind a dispatched synchronous offset
assignment, whose action produces no notification). -/
def sC3 : SourceUpdater :=
  run (getInit RS.opened false 0)
    [Input.callAppend (some 1), Input.callTimestampOffset (some 5),
     Input.callAppend (some 2), Input.evUpdateend false]

/-- State after one append has been enqueued and dispatched. -/
def sBusy : SourceUpdater :=
  run (getInit RS.opened false 0) [Input.callAppend (some 1)]

/-- State after a `setTimestampOffset(5)` from the initial state. -/
def sAfterSet : SourceUpdater :=
  run (getInit RS.opened false 0) [Input.callTimestampOffset (some 5)]

/-- A constructed instance whose SourceBuffer was never created (the
MediaSource was closed and `sourceopen` has not fired). -/
def sClosed : SourceUpdater := getInit RS.closed false 0

/-- State with an append in flight, used for the disposal race. -/
def sInFlight : SourceUpdater :=
  run (getInit RS.opened false 0) [Input.callAppend (some 7)]

/-! ## Claims -/

/-- **C1.** For any constructed instance and any valid input trace, the
completion callbacks invoked so far, followed by the ones still owed
(pending, then queued), equal exactly the callbacks enqueued via
`appendBuffer`/`remove`/`abort`, in enqueue order; so callbacks fire at
most once each and in enqueue order, and when the trace ends with the
queue drained and no callback pending, every enqueued callback has
fired exactly once, in enqueue order — regardless of when the
`updateend` notifications arrived. -/
theorem C1_callbacks_in_order (rs : RS) (em : Bool) (cnt : Nat)
    (s0 : SourceUpdater) (evs0 : List Item) (t : List Input)
    (h0 : initSU rs em cnt = some (s0, evs0))
    (hv : validTrace s0 t = true) :
    fired (evs0 ++ log s0 t) ++ stateDones (run s0 t) = enqSeq s0 t ∧
    ((run s0 t).callbacks_ = [] → (run s0 t).pendingCallback_ = none →
      fired (evs0 ++ log s0 t) = enqSeq s0 t) := by
  obtain ⟨i1, -, -, i4, -⟩ := initSU_facts rs em cnt s0 evs0 h0
  have key : fired (evs0 ++ log s0 t) ++ stateDones (run s0 t) = enqSeq s0 t := by
    rw [fired_append, i4, List.nil_append, trace_dones t s0, i1, List.nil_append]
  refine ⟨key, fun hcb hpend => ?_⟩
  have hsd : stateDones (run s0 t) = [] := by simp [stateDones, hcb, hpend]
  have k2 := key
  rw [hsd, List.append_nil] at k2
  exact k2

theorem C1_callbacks_in_order_witness :
    fired ([] ++ log (getInit RS.opened false 0) tC1)
        ++ stateDones (run (getInit RS.opened false 0) tC1)
      = enqSeq (getInit RS.opened false 0) tC1 ∧
    ((run (getInit RS.opened false 0) tC1).callbacks_ = [] →
      (run (getInit RS.opened false 0) tC1).pendingCallback_ = none →
      fired ([] ++ log (getInit RS.opened false 0) tC1)
        = enqSeq (getInit RS.opened false 0) tC1) :=
  C1_callbacks_in_order RS.opened false 0 (getInit RS.opened false 0) [] tC1
    (by decide) (by decide)

/-- **C2.** In every execution from construction, between any two
dispatches of asynchronous mutations (append/remove/abort — the
mutations the resource serializes and completes by notification) a
completion notification is delivered: at most one mutation is in flight
at any instant. -/
theorem C2_single_inflight (rs : RS) (em : Bool) (cnt : Nat)
    (s0 : SourceUpdater) (evs0 : List Item) (t : List Input)
    (h0 : initSU rs em cnt = some (s0, evs0))
    (hv : validTrace s0 t = true)
    (l1 l2 l3 : List Item) (k1 k2 : OpKind)
    (hsplit : evs0 ++ log s0 t = l1 ++ Item.disp k1 :: (l2 ++ Item.disp k2 :: l3))
    (hb1 : busyK k1 = true) (hb2 : busyK k2 = true) :
    ∃ f, Item.note f ∈ l2 := by
  obtain ⟨-, -, -, -, i5, i6, i7, -⟩ := initSU_facts rs em cnt s0 evs0 h0
  have hok : okFrom false (evs0 ++ log s0 t) = true := by
    rw [okFrom_append, updFold_false_of_no_disp evs0 i7, i6]
    have hl := (trace_ok t s0).1
    rw [i5] at hl
    rw [hl]
    rfl
  exact no_double_dispatch _ l1 l2 l3 k1 k2 hok hsplit hb1 hb2

theorem C2_single_inflight_witness :
    ∃ f, Item.note f ∈ [Item.note false, Item.cb 1 none] :=
  C2_single_inflight RS.opened false 0 (getInit RS.opened false 0) [] tC1
    (by decide) (by decide)
    [] [Item.note false, Item.cb 1 none] [Item.note false, Item.cb 2 none]
    OpKind.append OpKind.append (by decide) (by decide) (by decide)

/-- **C3.** On every reachable state, `runCallback_` dispatches (invokes
a queued action) iff all four conditions hold: `started_` is set, the
resource is not busy, no completion callback is pending, and the queue
is non-empty; and on dispatch it pops the head, stashes its `done` as
the pending callback, and invokes its action. -/
theorem C3_dispatch_iff (s : SourceUpdater) (hs : Reach s) :
    ((∃ k, Item.disp k ∈ (runCallback_ s).2) ↔
      (s.started_ = true ∧ s.sbUpdating = false ∧ s.pendingCallback_ = none ∧
       s.callbacks_ ≠ [])) ∧
    (∀ k d rest, s.callbacks_ = (k, d) :: rest →
      s.started_ = true → s.sbUpdating = false → s.pendingCallback_ = none →
      runCallback_ s
        = applyAction k { s with callbacks_ := rest, pendingCallback_ := d }) := by
  have hinv := reach_invSB s hs
  constructor
  · constructor
    · intro ⟨k, hk⟩
      by_cases hg : (!(updating s) && !s.callbacks_.isEmpty && s.started_) = true
      · obtain ⟨hsb, hupd, hpend, hne, hst⟩ := guard_components s hg
        refine ⟨hst, hupd, hpend, fun hnil => ?_⟩
        rw [hnil] at hne
        simp at hne
      · have hg' : (!(updating s) && !s.callbacks_.isEmpty && s.started_) = false := by
          cases hbv : (!(updating s) && !s.callbacks_.isEmpty && s.started_)
          · rfl
          · exact absurd hbv hg
        rw [runCallback_guard_false s hg'] at hk
        simp at hk
    · intro ⟨hst, hupd, hpend, hne⟩
      have hsb : s.hasSourceBuffer = true := hinv.1 hst
      have hg : (!(updating s) && !s.callbacks_.isEmpty && s.started_) = true := by
        simp [updating, hsb, hupd, hpend, hst, List.isEmpty_iff, hne]
      match hq : s.callbacks_ with
      | [] => exact absurd hq hne
      | (k, d) :: rest =>
        rw [runCallback_guard_true s k d rest hq hg, applyAction_snd]
        exact ⟨k, List.mem_cons_self _ _⟩
  · intro k d rest hq hst hupd hpend
    have hsb : s.hasSourceBuffer = true := hinv.1 hst
    have hg : (!(updating s) && !s.callbacks_.isEmpty && s.started_) = true := by
      simp [updating, hsb, hupd, hpend, hst, List.isEmpty_iff]
      intro hnil
      rw [hnil] at hq
      cases hq
    exact runCallback_guard_true s k d rest hq hg

theorem C3_dispatch_iff_witness : ∃ k, Item.disp k ∈ (runCallback_ sC3).2 := by
  have hR : Reach sC3 :=
    reach_run (getInit RS.opened false 0) _
      (Reach.init RS.opened false 0 (getInit RS.opened false 0) [] (by decide))
      (by decide)
  exact (C3_dispatch_iff sC3 hR).1.mpr (by decide)

/-- **C4.** Before any append, `remove` and `abort` are complete no-ops
(state unchanged, nothing dispatched, callback never invoked over any
continuation); `appendBuffer` sets the sticky `processedAppend_` flag,
which no transition unsets; and once it is set, `remove` and `abort` do
enqueue (push their entry at the back of the queue, then attempt a
dispatch). -/
theorem C4_gating (s : SourceUpdater) (a b : Int) (d : Option Nat) (t : List Input) :
    (s.processedAppend_ = false →
      step1 s (Input.callRemove a b d) = (s, []) ∧
      step1 s (Input.callAbort d) = (s, []) ∧
      run s (Input.callRemove a b d :: t) = run s t ∧
      log s (Input.callRemove a b d :: t) = log s t ∧
      run s (Input.callAbort d :: t) = run s t ∧
      log s (Input.callAbort d :: t) = log s t) ∧
    ((step1 s (Input.callAppend d)).1.processedAppend_ = true) ∧
    (∀ i, s.processedAppend_ = true → (step1 s i).1.processedAppend_ = true) ∧
    (s.processedAppend_ = true →
      step1 s (Input.callRemove a b d)
        = runCallback_ { s with callbacks_ := s.callbacks_ ++ [(OpKind.remove a b, d)] } ∧
      step1 s (Input.callAbort d)
        = runCallback_ { s with callbacks_ := s.callbacks_ ++ [(OpKind.abort, d)] }) := by
  refine ⟨fun hpa => ?_, ?_, fun i => step1_pa_sticky s i, fun hpa => ?_⟩
  · have h1 : step1 s (Input.callRemove a b d) = (s, []) := by
      simp only [step1]
      rw [if_neg (by simp [hpa])]
    have h2 : step1 s (Input.callAbort d) = (s, []) := by
      simp only [step1]
      rw [if_neg (by simp [hpa])]
    refine ⟨h1, h2, ?_, ?_, ?_, ?_⟩
    · rw [run_cons, h1]
    · rw [log_cons, h1]; simp
    · rw [run_cons, h2]
    · rw [log_cons, h2]; simp
  · obtain ⟨-, -, -, -, -, -, q7, -⟩ :=
      queueCallback_facts OpKind.append d { s with processedAppend_ := true }
    simp only [step1]
    rw [q7]
  · constructor
    · simp only [step1]
      rw [if_pos hpa]
      rfl
    · simp only [step1]
      rw [if_pos hpa]
      rfl

theorem C4_gating_witness :
    step1 (getInit RS.opened false 0) (Input.callRemove 0 10 (some 4))
      = (getInit RS.opened false 0, []) ∧
    step1 sBusy (Input.callRemove 0 10 (some 4))
      = runCallback_ { sBusy with callbacks_ := sBusy.callbacks_ ++ [(OpKind.remove 0 10, some 4)] } :=
  ⟨((C4_gating (getInit RS.opened false 0) 0 10 (some 4) []).1 (by decide)).1,
   ((C4_gating sBusy 0 10 (some 4) []).2.2.2 (by decide)).1⟩

/-- **C5.** No action is ever dispatched before `started_` is reached
(a trace ending un-started has an empty dispatch log); dispatches
always happen in the original enqueue order (the dispatched kinds
followed by the still-queued kinds equal the enqueued kinds); and with
a pairing emitter configured and fewer than two source buffers after
creation, the instance is created un-started and awaiting pairing, and
the `'sourcebufferadded'` notification starts it (after which the
queued operations dispatch, in order). -/
theorem C5_readiness (rs : RS) (em : Bool) (cnt : Nat) (s0 : SourceUpdater)
    (evs0 : List Item) (t : List Input)
    (h0 : initSU rs em cnt = some (s0, evs0)) (hv : validTrace s0 t = true) :
    ((run s0 t).started_ = false → dispKinds (evs0 ++ log s0 t) = []) ∧
    dispKinds (evs0 ++ log s0 t) ++ ((run s0 t).callbacks_.map Prod.fst)
      = enqKindSeq s0 t ∧
    (∀ sC evsC, initSU RS.opened true 0 = some (sC, evsC) →
      sC.started_ = false ∧ sC.awaitingPairing = true ∧
      (step1 sC Input.evSourcebufferadded).1.started_ = true) := by
  obtain ⟨-, i2, -, -, -, -, i7, -⟩ := initSU_facts rs em cnt s0 evs0 h0
  refine ⟨?_, ?_, ?_⟩
  · intro hns
    rw [dispKinds_append, i7, trace_noDisp t s0 hns]
    rfl
  · rw [dispKinds_append, i7, List.nil_append, trace_kinds t s0, i2]
    rfl
  · intro sC evsC hC
    have hval : initSU RS.opened true 0
        = some (getInit RS.opened true 0, [Item.trig]) := by decide
    rw [hval] at hC
    injection hC with hC
    have hsC : sC = getInit RS.opened true 0 := (congrArg Prod.fst hC).symm
    subst hsC
    refine ⟨by decide, by decide, by decide⟩

theorem C5_readiness_witness :
    dispKinds ([Item.trig] ++ log (getInit RS.opened true 0)
        [Input.callAppend (some 3)]) = [] :=
  (C5_readiness RS.opened true 0 (getInit RS.opened true 0) [Item.trig]
      [Input.callAppend (some 3)] (by decide) (by decide)).1 (by decide)

/-- **C6.** `timestampOffset(v)` caches `v` before returning, and a
subsequent read returns `v` synchronously; when the instance is
updating (queue not drained), the resource's own offset is untouched by
the call, yet the read still returns `v` — read consistency does not
wait on queue drain. -/
theorem C6_offset_cached (s : SourceUpdater) (v : Int) :
    ((timestampOffset (some v) s).1.1.timestampOffset_ = v) ∧
    ((timestampOffset none (timestampOffset (some v) s).1.1).2 = v) ∧
    (updating s = true →
      (timestampOffset (some v) s).1.1.sbTimestampOffset = s.sbTimestampOffset) := by
  refine ⟨rfl, rfl, fun hupd => ?_⟩
  have hupd' : updating { s with callbacks_ := s.callbacks_ ++ [(OpKind.setOffset v, none)] }
      = true := hupd
  have hg : (!(updating { s with callbacks_ := s.callbacks_ ++ [(OpKind.setOffset v, none)] })
      && !({ s with callbacks_ :=
              s.callbacks_ ++ [(OpKind.setOffset v, none)] }).callbacks_.isEmpty
      && ({ s with callbacks_ :=
              s.callbacks_ ++ [(OpKind.setOffset v, none)] }).started_) = false := by
    rw [hupd']
    rfl
  show (queueCallback_ (OpKind.setOffset v) none s).1.sbTimestampOffset = s.sbTimestampOffset
  unfold queueCallback_
  rw [runCallback_guard_false _ hg]

theorem C6_offset_cached_witness :
    (timestampOffset (some 5) sBusy).1.1.timestampOffset_ = 5 ∧
    (timestampOffset (some 5) sBusy).1.1.sbTimestampOffset = sBusy.sbTimestampOffset :=
  ⟨(C6_offset_cached sBusy 5).1, (C6_offset_cached sBusy 5).2.2 (by decide)⟩

/-- **C7 counterexample.** When the completion notification reports a
failure, the code still invokes the callback, but with *no* argument
(`pendingCallback()`): the failure is not surfaced as the callback's
argument, contradicting the claim. -/
theorem C7_cex :
    Item.cb 0 none ∈ log (getInit RS.opened false 0)
        [Input.callAppend (some 0), Input.evUpdateend true] ∧
    Item.cb 0 (some true) ∉ log (getInit RS.opened false 0)
        [Input.callAppend (some 0), Input.evUpdateend true] ∧
    (∀ arg, Item.cb 0 arg ∈ log (getInit RS.opened false 0)
        [Input.callAppend (some 0), Input.evUpdateend true] → arg = none) := by
  decide

/-- **C7 (amended).** When the completion notification reports that the
mutation failed, the pending completion callback is still invoked
exactly once and the dispatch loop proceeds to the next queued
operation; but it is invoked with no arguments — the failure is not
surfaced to it. -/
theorem C7_failure_completion (s : SourceUpdater) (c : Nat) (f : Bool)
    (hsub : s.subscribedUpdateend = true) (hpend : s.pendingCallback_ = some c) :
    (step1 s (Input.evUpdateend f)).2
      = Item.note f :: Item.cb c none
          :: (runCallback_ { s with sbUpdating := false, pendingCallback_ := none }).2 ∧
    fired (step1 s (Input.evUpdateend f)).2 = [c] ∧
    (step1 s (Input.evUpdateend f)).1
      = (runCallback_ { s with sbUpdating := false, pendingCallback_ := none }).1 := by
  have hsub' : ({ s with sbUpdating := false }).subscribedUpdateend = true := hsub
  have hpend' : ({ s with sbUpdating := false }).pendingCallback_ = some c := hpend
  simp only [step1]
  rw [if_pos hsub']
  simp only [onUpdateendCallback_, hpend', hpend]
  refine ⟨by first | rfl | trivial, ?_, by first | rfl | trivial⟩
  obtain ⟨r1, -⟩ :=
    runCallback_facts { s with sbUpdating := false, pendingCallback_ := none }
  simp [fired, r1]

theorem C7_failure_completion_witness :
    fired (step1 sBusy (Input.evUpdateend true)).2 = [1] :=
  (C7_failure_completion sBusy 1 true (by decide) (by decide)).2.1

/-- **C8.** Contrary to the claim, `dispose()` does have a
precondition: on an instance whose SourceBuffer was never created (the
MediaSource was still closed at construction and `sourceopen` has not
fired), the first line `this.sourceBuffer_.removeEventListener(...)`
dereferences `undefined` and throws a TypeError (`dispose = none`).  On
an instance whose SourceBuffer exists, dispose succeeds, requests an
abort exactly because the container is open, unsubscribes from the
completion notification, and a stale notification delivered afterwards
invokes no callback. -/
theorem C8_dispose_crash :
    initSU RS.closed false 0 = some (sClosed, []) ∧
    sClosed.hasSourceBuffer = false ∧
    dispose sClosed = none ∧
    dispose sInFlight = some (getDispose sInFlight, [Item.abortCall]) ∧
    (getDispose sInFlight).subscribedUpdateend = false ∧
    fired (step1 (getDispose sInFlight) (Input.evUpdateend false)).2 = [] := by
  decide

/-- **C9 counterexample.** `'ended'` is a non-open container state, yet
construction there does not subscribe to the container-open
notification and defer creation: it attempts immediate resource
creation, which throws (`initSU = none`) — there is no outcome in which
the serializer is subscribed with creation deferred. -/
theorem C9_cex :
    initSU RS.ended false 0 = none ∧
    ¬ ∃ s evs, initSU RS.ended false 0 = some (s, evs)
        ∧ s.subscribedSourceopen = true ∧ s.hasSourceBuffer = false := by
  refine ⟨by decide, ?_⟩
  rintro ⟨s, evs, hsome, -, -⟩
  rw [show initSU RS.ended false 0 = none from by decide] at hsome
  cases hsome

/-- **C9 (amended).** The constructor subscribes to the container-open
notification iff `readyState` is `'closed'` — creating the resource
only when that notification fires; when the container is already open
it creates the resource immediately; in the remaining non-open state
(`'ended'`) it does not subscribe but attempts immediate creation,
which throws. -/
theorem C9_subscribe (em : Bool) (cnt : Nat) :
    (∃ s, initSU RS.closed em cnt = some (s, []) ∧
      s.subscribedSourceopen = true ∧ s.hasSourceBuffer = false ∧
      (step1 s Input.evSourceopen).1.hasSourceBuffer = true) ∧
    (∀ s evs, initSU RS.opened em cnt = some (s, evs) →
      s.hasSourceBuffer = true ∧ s.subscribedSourceopen = false) ∧
    initSU RS.ended em cnt = none := by
  refine ⟨?_, ?_, ?_⟩
  · refine ⟨{ baseState RS.closed em cnt with subscribedSourceopen := true },
      ?_, rfl, rfl, ?_⟩
    · unfold initSU
      rw [if_pos rfl]
    · simp only [step1]
      rw [if_pos trivial]
      cases hr : createSourceBuffer_
          { { baseState RS.closed em cnt with subscribedSourceopen := true }
            with msReadyState := RS.opened } with
      | none =>
        rw [createSourceBuffer_eq, if_pos rfl] at hr
        cases hr
      | some r =>
        obtain ⟨-, -, -, -, -, f6, -⟩ := createSourceBuffer_facts _ r hr
        simpa using f6
  · intro s evs h
    unfold initSU at h
    rw [if_neg (by decide)] at h
    obtain ⟨-, -, -, -, -, f6, -, -, f9, -⟩ := createSourceBuffer_facts _ (s, evs) h
    exact ⟨f6, by rw [f9]; simp [baseState]⟩
  · unfold initSU
    rw [if_neg (by decide), createSourceBuffer_eq,
      if_neg (show ¬ ((baseState RS.ended em cnt).msReadyState = RS.opened) from by
        simp [baseState])]

theorem C9_subscribe_witness :
    (getInit RS.opened false 0).hasSourceBuffer = true ∧
    (getInit RS.opened false 0).subscribedSourceopen = false :=
  (C9_subscribe false 0).2.1 (getInit RS.opened false 0) [] (by decide)

/-- **C10.** The cached timestamp offset is `0` at construction; no
transition other than `timestampOffset` with a defined argument changes
it (`dispose` included); and a read returns the cached value
synchronously. -/
theorem C10_offset_zero_init (rs : RS) (em : Bool) (cnt : Nat) :
    (∀ s evs, initSU rs em cnt = some (s, evs) → s.timestampOffset_ = 0) ∧
    (∀ s i, (∀ v, i ≠ Input.callTimestampOffset (some v)) →
      (step1 s i).1.timestampOffset_ = s.timestampOffset_) ∧
    (∀ s : SourceUpdater, (timestampOffset none s).2 = s.timestampOffset_) ∧
    (∀ s p, dispose s = some p → p.1.timestampOffset_ = s.timestampOffset_) := by
  refine ⟨?_, fun s i hi => step1_tso_preserved s i hi, fun s => rfl, ?_⟩
  · intro s evs h
    exact (initSU_facts rs em cnt s evs h).2.2.2.2.2.2.2.1
  · intro s p h
    simp only [dispose] at h
    split at h
    · split at h <;> (injection h with h; rw [← h])
    · cases h

theorem C10_offset_zero_init_witness :
    (getInit RS.opened false 0).timestampOffset_ = 0 ∧
    (step1 sAfterSet (Input.callAppend (some 9))).1.timestampOffset_
      = sAfterSet.timestampOffset_ ∧
    (timestampOffset none sAfterSet).2 = sAfterSet.timestampOffset_ ∧
    (getDispose sAfterSet).timestampOffset_ = sAfterSet.timestampOffset_ :=
  ⟨(C10_offset_zero_init RS.opened false 0).1 (getInit RS.opened false 0) [] (by decide),
   (C10_offset_zero_init RS.opened false 0).2.1 sAfterSet (Input.callAppend (some 9))
     (fun v => by simp),
   (C10_offset_zero_init RS.opened false 0).2.2.1 sAfterSet,
   (C10_offset_zero_init RS.opened false 0).2.2.2 sAfterSet
     (getDispose sAfterSet, [Item.abortCall]) (by decide)⟩

end SourceUpdaterModel
